import Mathlib

/-!
Verification of the task-scheduling core of the `pie` trainer
(`src/pie/trainer.py`), as a shallow embedding in Lean 4.

Python floats are modelled as rationals extended with the two infinities
(`XRat`) where the code manipulates `float('inf')`, and as plain rationals
where only finite values occur (scores, thresholds, weights).  The mutable
`tasks` dict is an association list with Python dict semantics (insertion
order, replace-in-place on re-assignment).  The checkpoint file written by
`torch.save` is an `Option σ` slot (`none` = the file does not exist).
Exceptions are explicit outcome values.
-/

/-- Extended rationals: a rational number, `float('-inf')`, or `float('inf')`.
Used for the `best` field, which the code initialises to an infinity. -/
inductive XRat where
  | negInf
  | fin (q : ℚ)
  | posInf
deriving DecidableEq, Repr

/-- Addition `x + t` of a float that may be infinite and a finite float
(Python float semantics; `t` finite so no NaN can arise). -/
def XRat.addQ : XRat → ℚ → XRat
  | .negInf, _ => .negInf
  | .posInf, _ => .posInf
  | .fin b, t => .fin (b + t)

/-- Subtraction `x - t` of a float that may be infinite and a finite float. -/
def XRat.subQ : XRat → ℚ → XRat
  | .negInf, _ => .negInf
  | .posInf, _ => .posInf
  | .fin b, t => .fin (b - t)

/-- Comparison `v > x` for finite `v` (Python float semantics). -/
def qGtX (v : ℚ) : XRat → Bool
  | .negInf => true
  | .fin b => decide (b < v)
  | .posInf => false

/-- Comparison `v < x` for finite `v` (Python float semantics). -/
def qLtX (v : ℚ) : XRat → Bool
  | .negInf => false
  | .fin b => decide (v < b)
  | .posInf => true

/-- ASCII lowering of one character, mirroring `str.lower` on the ASCII
strings the code compares (`mode.lower()`). -/
def lowerChar (c : Char) : Char :=
  if 'A' ≤ c ∧ c ≤ 'Z' then Char.ofNat (c.toNat + 32) else c

/-- ASCII `str.lower`. -/
def lower (s : String) : String := ⟨s.data.map lowerChar⟩

/-- Python `dict` read `d.get(k)` over an insertion-ordered association list. -/
def lookupT {α : Type} : List (String × α) → String → Option α
  | [], _ => none
  | p :: rest, k => if p.1 = k then some p.2 else lookupT rest k

/-- Replace the value of every entry with key `k` (helper for `dictInsert`). -/
def replaceKey {α : Type} : List (String × α) → String → α → List (String × α)
  | [], _, _ => []
  | p :: rest, k, v => (if p.1 = k then (k, v) else p) :: replaceKey rest k v

/-- Python `dict` write `d[k] = v`: replace in place if the key is present,
else append at the end (insertion order). -/
def dictInsert {α : Type} : List (String × α) → String → α → List (String × α)
  | [], k, v => [(k, v)]
  | p :: rest, k, v =>
    if p.1 = k then (k, v) :: replaceKey rest k v
    else p :: dictInsert rest k v

/-- Per-task schedule options as they appear in the settings (`task['schedule']`
and `settings.lm_schedule`); every field is optional. -/
structure ScheduleCfg where
  mode : Option String := none
  weight : Option ℚ := none
  patience : Option Nat := none
  threshold : Option ℚ := none
  factor : Option ℚ := none
  min_weight : Option ℚ := none
deriving DecidableEq, Repr

/-- One entry of `settings.tasks`. -/
structure TaskSetting where
  name : String
  target : Bool := false
  schedule : ScheduleCfg := {}
deriving DecidableEq, Repr

/-- The slice of the settings object consumed by `TaskScheduler.__init__` and
`get_target_task`. -/
structure Settings where
  tasks : List TaskSetting
  include_lm : Bool := false
  lm_schedule : ScheduleCfg := {}
  patience : Nat
  factor : ℚ
  threshold : ℚ
  min_weight : ℚ
deriving DecidableEq, Repr

/-- The per-task dict built by `TaskScheduler.__init__`: the resolved fields
(`target`, `mode`, `best`, `steps`, `weight`) together with the per-task
overrides that `step`/`is_best` read back with `.get(key, global_default)`. -/
structure TaskData where
  target : Bool
  mode : String
  best : XRat
  steps : Nat
  weight : ℚ
  patienceOv : Option Nat
  thresholdOv : Option ℚ
  factorOv : Option ℚ
  minWeightOv : Option ℚ
deriving DecidableEq, Repr

/-- The mutable state of a `TaskScheduler` instance.  `snapshot` is the
content of the temporary checkpoint file `self.fid` (`none` when the file
does not exist); `σ` is the opaque type of `model.state_dict()` blobs. -/
structure SchedState (σ : Type) where
  tasks : List (String × TaskData)
  patience : Nat
  factor : ℚ
  threshold : ℚ
  min_weight : ℚ
  snapshot : Option σ
deriving DecidableEq, Repr

/-- Effective patience of a task: `self.tasks[task].get('patience', self.patience)`. -/
def effPatience {σ : Type} (st : SchedState σ) (td : TaskData) : Nat :=
  td.patienceOv.getD st.patience

/-- Effective threshold: `self.tasks[task].get('threshold', self.threshold)`. -/
def effThreshold {σ : Type} (st : SchedState σ) (td : TaskData) : ℚ :=
  td.thresholdOv.getD st.threshold

/-- Effective shrink factor: `self.tasks[task].get('factor', self.factor)`. -/
def effFactor {σ : Type} (st : SchedState σ) (td : TaskData) : ℚ :=
  td.factorOv.getD st.factor

/-- Effective weight floor: `self.tasks[task].get('min_weight', self.min_weight)`. -/
def effMinWeight {σ : Type} (st : SchedState σ) (td : TaskData) : ℚ :=
  td.minWeightOv.getD st.min_weight

/-- Loop of `get_target_task`: return the name of the first task whose
`target` entry is truthy, else raise `ValueError("No target task?")`. -/
def findTarget : List TaskSetting → Except String String
  | [] => .error "No target task?"
  | t :: ts => if t.target then .ok t.name else findTarget ts

/-- Embedding of `get_target_task(settings)` (trainer.py lines 39-43). -/
def get_target_task (s : Settings) : Except String String :=
  findTarget s.tasks

/-- First loop of `TaskScheduler.__init__` (lines 60-67): build the task dict
from the settings; each entry is the task's schedule plus its `target` flag,
and, when `settings.include_lm` is set, the two `lm_fwd`/`lm_bwd` entries are
(re)assigned from `settings.lm_schedule` on every iteration (they never carry
a `target` key, hence `false`). -/
def initTasksLoop (lm : Bool) (lmCfg : ScheduleCfg) :
    List TaskSetting → List (String × (ScheduleCfg × Bool)) →
    List (String × (ScheduleCfg × Bool))
  | [], acc => acc
  | t :: ts, acc =>
      initTasksLoop lm lmCfg ts
        (if lm then
          dictInsert (dictInsert (dictInsert acc t.name (t.schedule, t.target))
            "lm_fwd" (lmCfg, false)) "lm_bwd" (lmCfg, false)
        else dictInsert acc t.name (t.schedule, t.target))

/-- Second loop of `TaskScheduler.__init__` (lines 69-77): set the step
counter to 0, default the mode to `'max'`, default the weight to 1.0 and
initialise `best` to `-inf` when the (exact) mode string is `'max'`, else to
`+inf`. -/
def resolveTask (p : ScheduleCfg × Bool) : TaskData :=
  { target := p.2
    mode := p.1.mode.getD "max"
    steps := 0
    weight := p.1.weight.getD 1
    best := if p.1.mode.getD "max" = "max" then XRat.negInf else XRat.posInf
    patienceOv := p.1.patience
    thresholdOv := p.1.threshold
    factorOv := p.1.factor
    minWeightOv := p.1.min_weight }

/-- Embedding of `TaskScheduler.__init__` (lines 57-86).  The checkpoint file
does not exist yet (`snapshot := none`). -/
def schedInit (σ : Type) (s : Settings) : SchedState σ :=
  { tasks := (initTasksLoop s.include_lm s.lm_schedule s.tasks []).map
      (fun p => (p.1, resolveTask p.2))
    patience := s.patience
    factor := s.factor
    threshold := s.threshold
    min_weight := s.min_weight
    snapshot := none }

/-- Embedding of `TaskScheduler.is_best` (lines 104-112).  A missing task is
a `KeyError`; an unknown mode raises `ValueError` with the source's message. -/
def TaskScheduler.is_best {σ : Type} (st : SchedState σ) (task : String)
    (value : ℚ) : Except String Bool :=
  match lookupT st.tasks task with
  | none => .error ("KeyError: " ++ task)
  | some td =>
    if lower td.mode = "max" then .ok (qGtX value (td.best.addQ (effThreshold st td)))
    else if lower td.mode = "min" then .ok (qLtX value (td.best.subQ (effThreshold st td)))
    else .error ("Wrong mode value [" ++ td.mode ++ "] for task: " ++ task)

/-- Exceptional outcomes of one `TaskScheduler.step` call: the
`EarlyStopException(task, loss, state_dict)` of lines 46-50 and 139-142, the
`FileNotFoundError` that `torch.load(self.fid)` would raise were the
checkpoint file absent, and the `ValueError` propagating from `is_best`. -/
inductive StepError (σ : Type) where
  | earlyStop (task : String) (best : XRat) (stateDict : σ)
  | fileNotFound
  | wrongMode (task : String)
deriving DecidableEq, Repr

/-- Improvement branch of `step` (lines 127-128): record the new best and
reset the counter. -/
def improvedTD (td : TaskData) (score : ℚ) : TaskData :=
  { td with best := XRat.fin score, steps := 0 }

/-- Non-improvement branch of `step` (line 133): bump the counter. -/
def stuckTD (td : TaskData) : TaskData :=
  { td with steps := td.steps + 1 }

/-- Down-weighting of an exhausted auxiliary task (lines 145-148):
`weight = max(weight * factor, min_weight)`. -/
def shrinkTD {σ : Type} (st : SchedState σ) (td : TaskData) : TaskData :=
  { td with weight := max (td.weight * effFactor st td) (effMinWeight st td) }

/-- Patience check of `step` (lines 136-148), entered after the task entry
was updated to `td1` and the checkpoint slot to `snap`.  For the target task
the stored snapshot is read, the file removed, and `EarlyStopException`
raised; an absent file would surface as `FileNotFoundError`.  For an
auxiliary task the weight is shrunk in place. -/
def afterUpdate {σ : Type} (st : SchedState σ) (task : String) (td1 : TaskData)
    (snap : Option σ) (isTarget : Bool) : SchedState σ × Option (StepError σ) :=
  if effPatience st td1 ≤ td1.steps then
    if isTarget then
      match snap with
      | some sd =>
          ({ st with tasks := dictInsert st.tasks task td1, snapshot := none },
            some (.earlyStop task td1.best sd))
      | none =>
          ({ st with tasks := dictInsert st.tasks task td1, snapshot := snap },
            some .fileNotFound)
    else
      ({ st with
          tasks := dictInsert (dictInsert st.tasks task td1) task
            (shrinkTD st td1),
          snapshot := snap }, none)
  else
    ({ st with tasks := dictInsert st.tasks task td1, snapshot := snap }, none)

/-- Body of the `for task, score in scores.items()` loop of
`TaskScheduler.step` (lines 118-148) for a single `(task, score)` pair.
Unknown tasks are silently skipped.  On improvement of the target task the
model's state dict is saved to the checkpoint slot before the patience
check. -/
def stepOne {σ : Type} (st : SchedState σ) (task : String) (score : ℚ)
    (model : σ) : SchedState σ × Option (StepError σ) :=
  match lookupT st.tasks task with
  | none => (st, none)
  | some td =>
    match TaskScheduler.is_best st task score with
    | .error _ => (st, some (.wrongMode task))
    | .ok true =>
        afterUpdate st task (improvedTD td score)
          (if td.target then some model else st.snapshot) td.target
    | .ok false =>
        afterUpdate st task (stuckTD td) st.snapshot td.target

/-- Embedding of `TaskScheduler.step(scores, model)` (lines 114-148): process
the score mapping in iteration order; a raised exception aborts the loop,
leaving the state mutated so far. -/
def TaskScheduler.step {σ : Type} (st : SchedState σ)
    (scores : List (String × ℚ)) (model : σ) :
    SchedState σ × Option (StepError σ) :=
  match scores with
  | [] => (st, none)
  | (task, score) :: rest =>
    match stepOne st task score model with
    | (st', none) => TaskScheduler.step st' rest model
    | (st', some e) => (st', some e)

/-- Embedding of `TaskScheduler.get_weights` (lines 150-151). -/
def TaskScheduler.get_weights {σ : Type} (st : SchedState σ) :
    List (String × ℚ) :=
  st.tasks.map (fun p => (p.1, p.2.weight))

/-- A sequence of `step` calls, keeping the state regardless of raised
exceptions (used to state invariants of the state trajectory). -/
def TaskScheduler.run {σ : Type} (st : SchedState σ) :
    List (List (String × ℚ) × σ) → SchedState σ
  | [] => st
  | (scores, m) :: rest =>
      TaskScheduler.run (TaskScheduler.step st scores m).1 rest

/-- A sequence of `step` calls as they happen in a training run: the first
raised exception ends the run and is propagated. -/
def TaskScheduler.runE {σ : Type} (st : SchedState σ) :
    List (List (String × ℚ) × σ) → Except (StepError σ) (SchedState σ)
  | [] => .ok st
  | (scores, m) :: rest =>
    match TaskScheduler.step st scores m with
    | (st', none) => TaskScheduler.runE st' rest
    | (_, some e) => .error e

/-- Auxiliary probability mass of `sample_task` (line 33):
`(1 / (len(tasks) - 1)) / factor` when more than one task exists, else 0. -/
def sample_task_aux (n : Nat) (factor : ℚ) : ℚ :=
  if 1 < n then (1 / ((n : ℚ) - 1)) / factor else 0

/-- Weight list handed by `sample_task` (lines 31-36) to `random.choices`:
the target task gets `1 - aux * (len(tasks) - 1)`, every other task gets
`aux`, in task order. -/
def sample_task_weights (target : String) (tasks : List String) (factor : ℚ) :
    List ℚ :=
  tasks.map (fun task =>
    if task ≠ target then sample_task_aux tasks.length factor
    else 1 - sample_task_aux tasks.length factor * ((tasks.length : ℚ) - 1))

/-- Whether the `random.choices(tasks, weights)` draw of line 36 succeeds:
it raises `ValueError` only when the total weight is not positive.  The drawn
task itself is random and not modelled. -/
def sample_task_ok (target : String) (tasks : List String) (factor : ℚ) :
    Bool :=
  decide (0 < (sample_task_weights target tasks factor).sum)

/-- Embedding of the `check_freq` derivation in `Trainer.__init__`
(lines 286-293); `Int.fdiv` is Python's floor division `//`. -/
def check_freq (num_batches : Int) (checks_per_epoch : Int) : Int :=
  if checks_per_epoch = 1 then num_batches - 1
  else if num_batches < checks_per_epoch then 1
  else if 1 < checks_per_epoch then Int.fdiv num_batches checks_per_epoch
  else 0

/-- State of a `DelayerScheduler` (lines 154-172): its `nb_steps` counter,
its `delay`, and the number of times the wrapped base schedule's `step` was
invoked (the base schedule itself is opaque). -/
structure DelayerScheduler where
  nb_steps : Int
  delay : Int
  base_steps : Nat
deriving DecidableEq, Repr

/-- Embedding of `DelayerScheduler.step` (lines 161-164): bump `nb_steps`,
then forward to the base schedule only once `steps > delay`. -/
def DelayerScheduler.stepFn (s : DelayerScheduler) : DelayerScheduler :=
  { s with
    nb_steps := s.nb_steps + 1
    base_steps := if s.delay < s.nb_steps + 1 then s.base_steps + 1
      else s.base_steps }

/-- Embedding of `DelayerScheduler.__init__` (lines 155-159): `nb_steps`
starts at `-1`, and the parent constructor
(`torch.optim.lr_scheduler._LRScheduler.__init__`) ends by invoking
`self.step()` once, which dispatches to the overridden `step` above. -/
def DelayerScheduler.init (delay : Int) : DelayerScheduler :=
  DelayerScheduler.stepFn { nb_steps := -1, delay := delay, base_steps := 0 }

/-- Embedding of the `waiting` property (lines 166-168): `steps <= delay`. -/
def DelayerScheduler.waiting (s : DelayerScheduler) : Bool :=
  decide (s.nb_steps ≤ s.delay)

/-- Iterate `k` explicit invocations of `DelayerScheduler.step` after
construction. -/
def DelayerScheduler.runSteps (s : DelayerScheduler) : Nat → DelayerScheduler
  | 0 => s
  | k + 1 => DelayerScheduler.stepFn (DelayerScheduler.runSteps s k)

/-- Payload of `EarlyStopException` (lines 46-50): the task name, the best
score (`loss`), and the checkpoint blob (`best_state_dict`, opaque, modelled
as `Nat`). -/
structure EarlyStopInfo where
  task : String
  loss : XRat
  best_state_dict : Nat
deriving DecidableEq, Repr

/-- Loop of `Trainer.train_epoch` (lines 394-439), abstracted over the
batching and model calls: `scores` starts as `None` and is overwritten by the
result of each evaluation check (`run_check`, line 434); a check may instead
raise `EarlyStopException` (from `task_scheduler.step` inside `run_check`),
which aborts the epoch. -/
def trainEpochGo (scores : Option (List (String × ℚ))) :
    List (Except EarlyStopInfo (List (String × ℚ))) →
    Except EarlyStopInfo (Option (List (String × ℚ)))
  | [] => .ok scores
  | c :: rest =>
    match c with
    | .error e => .error e
    | .ok m => trainEpochGo (some m) rest

/-- Embedding of `Trainer.train_epoch` for one epoch, given the outcomes of
the evaluation checks that fire during that epoch: returns the scores of the
last check, `none` if no check ran, or propagates `EarlyStopException`. -/
def Trainer.train_epoch
    (checks : List (Except EarlyStopInfo (List (String × ℚ)))) :
    Except EarlyStopInfo (Option (List (String × ℚ))) :=
  trainEpochGo none checks

/-- Epoch loop of `Trainer.train_epochs` (lines 441-468).  `scores` starts as
`None`; line 453 invokes `self.train_epoch(devset, epoch)` WITHOUT binding
its return value, so only the `except EarlyStopException` handler (line 458)
ever assigns `scores`, as `{e.task: e.loss}`. -/
def trainEpochsGo :
    List (List (Except EarlyStopInfo (List (String × ℚ)))) →
    Option (List (String × XRat))
  | [] => none
  | epochChecks :: rest =>
    match Trainer.train_epoch epochChecks with
    | .error e => some [(e.task, e.loss)]
    | .ok _ => trainEpochsGo rest

/-- Embedding of `Trainer.train_epochs(epochs, devset)`: the list element `i`
holds the evaluation-check outcomes of epoch `i + 1`. -/
def Trainer.train_epochs
    (epochOutcomes : List (List (Except EarlyStopInfo (List (String × ℚ))))) :
    Option (List (String × XRat)) :=
  trainEpochsGo epochOutcomes

/-- Configuration soundness used by the weight claims: every tracked
auxiliary task has an effective shrink factor at most 1 and an effective
weight floor that is non-negative and below the current weight. -/
def GoodCfg {σ : Type} (st : SchedState σ) : Prop :=
  ∀ u td, lookupT st.tasks u = some td → td.target = false →
    effFactor st td ≤ 1 ∧ 0 ≤ effMinWeight st td ∧
      effMinWeight st td ≤ td.weight

/-- How one state of the scheduler relates to a later state of the same run:
the global schedule configuration is unchanged, the task set is unchanged,
each task keeps its `target` flag and per-task overrides, and the weight of
a non-target task has not increased. -/
def Steppy {σ : Type} (st st' : SchedState σ) : Prop :=
  st'.patience = st.patience ∧ st'.factor = st.factor ∧
  st'.threshold = st.threshold ∧ st'.min_weight = st.min_weight ∧
  (∀ u, lookupT st.tasks u = none → lookupT st'.tasks u = none) ∧
  ∀ u td, lookupT st.tasks u = some td →
    ∃ td', lookupT st'.tasks u = some td' ∧
      td'.target = td.target ∧ td'.patienceOv = td.patienceOv ∧
      td'.thresholdOv = td.thresholdOv ∧ td'.factorOv = td.factorOv ∧
      td'.minWeightOv = td.minWeightOv ∧
      (td.target = false → td'.weight ≤ td.weight)

/-- Run invariant for the checkpoint claim: every tracked target task either
still has its initial infinite `best` (matching its mode), or its `best` is
finite and the checkpoint file exists. -/
def InvC10 {σ : Type} (st : SchedState σ) : Prop :=
  ∀ u td, lookupT st.tasks u = some td → td.target = true →
    (td.mode = "max" ∧ td.best = XRat.negInf) ∨
    (td.mode = "min" ∧ td.best = XRat.posInf) ∨
    ((∃ q, td.best = XRat.fin q) ∧ st.snapshot ≠ none)

/-- Settings of the early-stop scenario of §8 of the spec: one target task
`t`, `patience=2`, `mode=max` (default), `threshold=0`. -/
def c1_settings : Settings :=
  { tasks := [{ name := "t", target := true }]
    patience := 2, factor := 1/2, threshold := 0, min_weight := 1/100 }

/-- First `step` call of the early-stop scenario: score 0.5, model state 7. -/
def c1_s1 : SchedState Nat × Option (StepError Nat) :=
  TaskScheduler.step (schedInit Nat c1_settings) [("t", 1/2)] 7

/-- Second `step` call: score 0.5 again, model state 8. -/
def c1_s2 : SchedState Nat × Option (StepError Nat) :=
  TaskScheduler.step c1_s1.1 [("t", 1/2)] 8

/-- Third `step` call: score 0.5 again, model state 9. -/
def c1_s3 : SchedState Nat × Option (StepError Nat) :=
  TaskScheduler.step c1_s2.1 [("t", 1/2)] 9

/-- The record of task `t` after the first call of the scenario. -/
def c1_td1 : TaskData :=
  { target := true, mode := "max", best := XRat.fin (1/2), steps := 0,
    weight := 1, patienceOv := none, thresholdOv := none, factorOv := none,
    minWeightOv := none }

/-- Settings with two tasks marked as target. -/
def c2_settings : Settings :=
  { tasks := [{ name := "t1", target := true }, { name := "t2", target := true }]
    patience := 1, factor := 1, threshold := 0, min_weight := 0 }

/-- Settings whose single (target) task declares the invalid mode `avg`. -/
def c3_settings : Settings :=
  { tasks := [{ name := "t", target := true, schedule := { mode := some "avg" } }]
    patience := 2, factor := 1, threshold := 0, min_weight := 0 }

/-- Settings with a target task `t` and an auxiliary task `a`, `patience=2`,
global shrink factor 1/2 and weight floor 0. -/
def c5_settings : Settings :=
  { tasks := [{ name := "t", target := true }, { name := "a" }]
    patience := 2, factor := 1/2, threshold := 0, min_weight := 0 }

/-- First of four evaluations in which the auxiliary task `a` scores 0. -/
def c5_s1 : SchedState Nat × Option (StepError Nat) :=
  TaskScheduler.step (schedInit Nat c5_settings) [("a", 0)] 0

/-- Second evaluation of the stuck-auxiliary scenario. -/
def c5_s2 : SchedState Nat × Option (StepError Nat) :=
  TaskScheduler.step c5_s1.1 [("a", 0)] 0

/-- Third evaluation of the stuck-auxiliary scenario. -/
def c5_s3 : SchedState Nat × Option (StepError Nat) :=
  TaskScheduler.step c5_s2.1 [("a", 0)] 0

/-- Fourth evaluation of the stuck-auxiliary scenario. -/
def c5_s4 : SchedState Nat × Option (StepError Nat) :=
  TaskScheduler.step c5_s3.1 [("a", 0)] 0

/-- The record of the auxiliary task `a` right after construction. -/
def c5_td0 : TaskData :=
  { target := false, mode := "max", best := XRat.negInf, steps := 0,
    weight := 1, patienceOv := none, thresholdOv := none, factorOv := none,
    minWeightOv := none }

/-- A successful dict lookup yields an entry of the list. -/
theorem lookupT_mem {α : Type} {l : List (String × α)} {u : String} {v : α}
    (h : lookupT l u = some v) : (u, v) ∈ l := by
  induction l with
  | nil => simp [lookupT] at h
  | cons p rest ih =>
    by_cases hk : p.1 = u
    · rw [lookupT, if_pos hk] at h
      have hv : p.2 = v := Option.some.inj h
      have : p = (u, v) := Prod.ext hk hv
      rw [← this]
      exact List.mem_cons_self p rest
    · rw [lookupT, if_neg hk] at h
      exact List.mem_cons_of_mem _ (ih h)

/-- Replacing the value under key `k` leaves lookups of other keys alone. -/
theorem lookupT_replaceKey_ne {α : Type} {l : List (String × α)} {k u : String}
    {v : α} (h : u ≠ k) : lookupT (replaceKey l k v) u = lookupT l u := by
  induction l with
  | nil => rfl
  | cons p rest ih =>
    by_cases hk : p.1 = k
    · rw [replaceKey, if_pos hk, lookupT, lookupT]
      have hne : ¬(k = u) := fun hku => h hku.symm
      rw [if_neg hne, if_neg (by rw [hk]; exact hne), ih]
    · rw [replaceKey, if_neg hk, lookupT, lookupT, ih]

/-- Reading back the key just written returns the written value. -/
theorem lookupT_dictInsert_self {α : Type} (l : List (String × α)) (k : String)
    (v : α) : lookupT (dictInsert l k v) k = some v := by
  induction l with
  | nil => simp [dictInsert, lookupT]
  | cons p rest ih =>
    by_cases hk : p.1 = k
    · rw [dictInsert, if_pos hk, lookupT, if_pos rfl]
    · rw [dictInsert, if_neg hk, lookupT, if_neg hk, ih]

/-- Writing key `k` leaves lookups of other keys alone. -/
theorem lookupT_dictInsert_ne {α : Type} {l : List (String × α)} {k u : String}
    {v : α} (h : u ≠ k) : lookupT (dictInsert l k v) u = lookupT l u := by
  induction l with
  | nil =>
    have hne : ¬(k = u) := fun hku => h hku.symm
    simp [dictInsert, lookupT, hne]
  | cons p rest ih =>
    by_cases hk : p.1 = k
    · rw [dictInsert, if_pos hk, lookupT]
      have hne : ¬(k = u) := fun hku => h hku.symm
      rw [if_neg hne, lookupT_replaceKey_ne h, lookupT, if_neg (by rw [hk]; exact hne)]
    · rw [dictInsert, if_neg hk, lookupT, lookupT]
      by_cases hpu : p.1 = u
      · rw [if_pos hpu, if_pos hpu]
      · rw [if_neg hpu, if_neg hpu, ih]

/-- Lookup commutes with a value-wise map over the dict. -/
theorem lookupT_map_value {α β : Type} (f : α → β) (l : List (String × α))
    (u : String) :
    lookupT (l.map (fun p => (p.1, f p.2))) u = (lookupT l u).map f := by
  induction l with
  | nil => rfl
  | cons p rest ih =>
    by_cases hk : p.1 = u
    · simp [lookupT, hk]
    · simp [lookupT, hk, ih]

/-- The weight reported by `get_weights` for a task is the `weight` field of
its record. -/
theorem lookupT_get_weights {σ : Type} (st : SchedState σ) (u : String) :
    lookupT (TaskScheduler.get_weights st) u =
      (lookupT st.tasks u).map TaskData.weight := by
  exact lookupT_map_value TaskData.weight st.tasks u

theorem replaceKey_replaceKey {α : Type} (l : List (String × α)) (k : String)
    (v w : α) : replaceKey (replaceKey l k v) k w = replaceKey l k w := by
  induction l with
  | nil => rfl
  | cons p rest ih =>
    by_cases hk : p.1 = k
    · simp [replaceKey, hk, ih]
    · simp [replaceKey, hk, ih]

/-- Two consecutive writes to the same key collapse to the second write. -/
theorem dictInsert_dictInsert_same {α : Type} (l : List (String × α))
    (k : String) (v w : α) :
    dictInsert (dictInsert l k v) k w = dictInsert l k w := by
  induction l with
  | nil => simp [dictInsert, replaceKey]
  | cons p rest ih =>
    by_cases hk : p.1 = k
    · simp [dictInsert, hk, replaceKey_replaceKey]
    · simp [dictInsert, hk, ih]

theorem steppy_refl {σ : Type} (st : SchedState σ) : Steppy st st :=
  ⟨rfl, rfl, rfl, rfl, fun _ h => h,
    fun _ td h => ⟨td, h, rfl, rfl, rfl, rfl, rfl, fun _ => le_refl _⟩⟩

theorem steppy_trans {σ : Type} {st₁ st₂ st₃ : SchedState σ}
    (h₁ : Steppy st₁ st₂) (h₂ : Steppy st₂ st₃) : Steppy st₁ st₃ := by
  obtain ⟨hp₁, hf₁, ht₁, hm₁, hn₁, hs₁⟩ := h₁
  obtain ⟨hp₂, hf₂, ht₂, hm₂, hn₂, hs₂⟩ := h₂
  refine ⟨hp₂.trans hp₁, hf₂.trans hf₁, ht₂.trans ht₁, hm₂.trans hm₁,
    fun u h => hn₂ u (hn₁ u h), fun u td h => ?_⟩
  obtain ⟨td', h', e₁, e₂, e₃, e₄, e₅, hw⟩ := hs₁ u td h
  obtain ⟨td'', h'', f₁, f₂, f₃, f₄, f₅, hw'⟩ := hs₂ u td' h'
  refine ⟨td'', h'', f₁.trans e₁, f₂.trans e₂, f₃.trans e₃, f₄.trans e₄,
    f₅.trans e₅, fun htar => ?_⟩
  exact le_trans (hw' (e₁.trans htar)) (hw htar)

/-- The effective overrides of a task record are stable along `Steppy`. -/
theorem steppy_eff {σ : Type} {st st' : SchedState σ} (h : Steppy st st')
    {u : String} {td td' : TaskData} (hl : lookupT st.tasks u = some td)
    (hl' : lookupT st'.tasks u = some td') :
    effMinWeight st' td' = effMinWeight st td ∧
      effFactor st' td' = effFactor st td ∧
      effPatience st' td' = effPatience st td ∧
      effThreshold st' td' = effThreshold st td ∧ td'.target = td.target := by
  obtain ⟨hp, hf, ht, hm, _, hs⟩ := h
  obtain ⟨td'', h'', e₁, e₂, e₃, e₄, e₅, _⟩ := hs u td hl
  have : td'' = td' := Option.some.inj (h''.symm.trans hl')
  subst this
  refine ⟨?_, ?_, ?_, ?_, e₁⟩
  · rw [effMinWeight, effMinWeight, e₅, hm]
  · rw [effFactor, effFactor, e₄, hf]
  · rw [effPatience, effPatience, e₂, hp]
  · rw [effThreshold, effThreshold, e₃, ht]

/-- State reached by `afterUpdate`, before the patience check resolves:
only the entry of `task` and the snapshot slot change. -/
theorem afterUpdate_fst {σ : Type} (st : SchedState σ) (task : String)
    (td1 : TaskData) (snap : Option σ) (isTarget : Bool) :
    ∃ tfin snap',
      (afterUpdate st task td1 snap isTarget).1 =
        { st with tasks := dictInsert st.tasks task tfin, snapshot := snap' } ∧
      (tfin = td1 ∨
        (isTarget = false ∧ effPatience st td1 ≤ td1.steps ∧
          tfin = shrinkTD st td1)) ∧
      (snap' = snap ∨ snap' = none) := by
  unfold afterUpdate
  by_cases hp : effPatience st td1 ≤ td1.steps
  · rw [if_pos hp]
    cases hT : isTarget with
    | true =>
      rw [if_pos rfl]
      cases snap with
      | some sd => exact ⟨td1, none, rfl, Or.inl rfl, Or.inr rfl⟩
      | none => exact ⟨td1, none, rfl, Or.inl rfl, Or.inr rfl⟩
    | false =>
      rw [if_neg (by simp)]
      refine ⟨shrinkTD st td1, snap, ?_, Or.inr ⟨rfl, hp, rfl⟩, Or.inl rfl⟩
      simp [dictInsert_dictInsert_same]
  · rw [if_neg hp]
    exact ⟨td1, snap, rfl, Or.inl rfl, Or.inl rfl⟩


/-- One pass through `afterUpdate` preserves the run invariants, provided the
updated record `td1` only changed `best`/`steps` relative to the tracked
record `td`. -/
theorem afterUpdate_steppy {σ : Type} (st : SchedState σ) (task : String)
    (td td1 : TaskData) (snap : Option σ) (hg : GoodCfg st)
    (hlk : lookupT st.tasks task = some td)
    (h1 : td1.target = td.target) (h2 : td1.patienceOv = td.patienceOv)
    (h3 : td1.thresholdOv = td.thresholdOv) (h4 : td1.factorOv = td.factorOv)
    (h5 : td1.minWeightOv = td.minWeightOv) (h6 : td1.weight = td.weight) :
    Steppy st (afterUpdate st task td1 snap td.target).1 ∧
      GoodCfg (afterUpdate st task td1 snap td.target).1 := by
  obtain ⟨tfin, snap', heq, hfin, -⟩ :=
    afterUpdate_fst st task td1 snap td.target
  -- facts about the final record of `task`
  have htfin : tfin.target = td.target ∧ tfin.patienceOv = td.patienceOv ∧
      tfin.thresholdOv = td.thresholdOv ∧ tfin.factorOv = td.factorOv ∧
      tfin.minWeightOv = td.minWeightOv ∧
      (td.target = false →
        tfin.weight ≤ td.weight ∧ effMinWeight st td ≤ tfin.weight) := by
    rcases hfin with rfl | ⟨hT, -, rfl⟩
    · refine ⟨h1, h2, h3, h4, h5, fun ht => ?_⟩
      obtain ⟨-, -, g3⟩ := hg task td hlk ht
      exact ⟨le_of_eq h6, by rw [h6]; exact g3⟩
    · have htar : td.target = false := hT
      obtain ⟨g1, g2, g3⟩ := hg task td hlk htar
      have hf : effFactor st td1 = effFactor st td := by
        rw [effFactor, effFactor, h4]
      have hm : effMinWeight st td1 = effMinWeight st td := by
        rw [effMinWeight, effMinWeight, h5]
      refine ⟨h1, h2, h3, h4, h5, fun _ => ?_⟩
      constructor
      · show max (td1.weight * effFactor st td1) (effMinWeight st td1) ≤ td.weight
        rw [hf, hm, h6]
        exact max_le (mul_le_of_le_one_right (le_trans g2 g3) g1) g3
      · show effMinWeight st td ≤ max (td1.weight * effFactor st td1) (effMinWeight st td1)
        rw [hm]
        exact le_max_right _ _
  obtain ⟨f1, f2, f3, f4, f5, fw⟩ := htfin
  rw [heq]
  constructor
  · refine ⟨rfl, rfl, rfl, rfl, fun u hu => ?_, fun u tdu hu => ?_⟩
    · have hne : u ≠ task := fun h => by rw [h, hlk] at hu; cases hu
      show lookupT (dictInsert st.tasks task tfin) u = none
      rw [lookupT_dictInsert_ne hne]; exact hu
    · by_cases hut : u = task
      · subst hut
        have : tdu = td := Option.some.inj (hu.symm.trans hlk)
        subst this
        exact ⟨tfin, lookupT_dictInsert_self _ _ _, f1, f2, f3, f4, f5,
          fun ht => (fw ht).1⟩
      · exact ⟨tdu, by rw [lookupT_dictInsert_ne hut]; exact hu,
          rfl, rfl, rfl, rfl, rfl, fun _ => le_refl _⟩
  · intro u tdu hu htar
    by_cases hut : u = task
    · subst hut
      rw [lookupT_dictInsert_self] at hu
      have : tfin = tdu := Option.some.inj hu
      subst this
      have htd : td.target = false := by rw [← f1]; exact htar
      obtain ⟨g1, g2, g3⟩ := hg _ td hlk htd
      refine ⟨?_, ?_, ?_⟩
      · show tfin.factorOv.getD st.factor ≤ 1
        rw [f4]; exact g1
      · show 0 ≤ tfin.minWeightOv.getD st.min_weight
        rw [f5]; exact g2
      · show tfin.minWeightOv.getD st.min_weight ≤ tfin.weight
        rw [f5]
        exact (fw htd).2
    · rw [lookupT_dictInsert_ne hut] at hu
      exact hg u tdu hu htar

/-- One loop iteration of `step` preserves the run invariants. -/
theorem stepOne_steppy {σ : Type} (st : SchedState σ) (task : String)
    (score : ℚ) (m : σ) (hg : GoodCfg st) :
    Steppy st (stepOne st task score m).1 ∧
      GoodCfg (stepOne st task score m).1 := by
  unfold stepOne
  cases hlk : lookupT st.tasks task with
  | none => exact ⟨steppy_refl st, hg⟩
  | some td =>
    cases hib : TaskScheduler.is_best st task score with
    | error e => exact ⟨steppy_refl st, hg⟩
    | ok b =>
      cases b with
      | true =>
        exact afterUpdate_steppy st task td (improvedTD td score) _ hg hlk
          rfl rfl rfl rfl rfl rfl
      | false =>
        exact afterUpdate_steppy st task td (stuckTD td) _ hg hlk
          rfl rfl rfl rfl rfl rfl

/-- A whole `step` call preserves the run invariants, whether or not it
raises. -/
theorem step_steppy {σ : Type} (scores : List (String × ℚ))
    (st : SchedState σ) (m : σ) (hg : GoodCfg st) :
    Steppy st (TaskScheduler.step st scores m).1 ∧
      GoodCfg (TaskScheduler.step st scores m).1 := by
  induction scores generalizing st with
  | nil => exact ⟨steppy_refl st, hg⟩
  | cons p rest ih =>
    obtain ⟨task, score⟩ := p
    obtain ⟨h₁, h₂⟩ := stepOne_steppy st task score m hg
    rcases hso : stepOne st task score m with ⟨st', e⟩
    rw [hso] at h₁ h₂
    cases e with
    | none =>
      rw [TaskScheduler.step, hso]
      obtain ⟨h₃, h₄⟩ := ih st' h₂
      exact ⟨steppy_trans h₁ h₃, h₄⟩
    | some err =>
      rw [TaskScheduler.step, hso]
      exact ⟨h₁, h₂⟩

/-- A whole sequence of `step` calls preserves the run invariants. -/
theorem run_steppy {σ : Type} (calls : List (List (String × ℚ) × σ))
    (st : SchedState σ) (hg : GoodCfg st) :
    Steppy st (TaskScheduler.run st calls) ∧
      GoodCfg (TaskScheduler.run st calls) := by
  induction calls generalizing st with
  | nil => exact ⟨steppy_refl st, hg⟩
  | cons c rest ih =>
    obtain ⟨scores, m⟩ := c
    obtain ⟨h₁, h₂⟩ := step_steppy scores st m hg
    rw [TaskScheduler.run]
    obtain ⟨h₃, h₄⟩ := ih _ h₂
    exact ⟨steppy_trans h₁ h₃, h₄⟩

theorem run_append {σ : Type} (st : SchedState σ)
    (l₁ l₂ : List (List (String × ℚ) × σ)) :
    TaskScheduler.run st (l₁ ++ l₂) =
      TaskScheduler.run (TaskScheduler.run st l₁) l₂ := by
  induction l₁ generalizing st with
  | nil => rfl
  | cons c rest ih =>
    obtain ⟨scores, m⟩ := c
    rw [List.cons_append, TaskScheduler.run, TaskScheduler.run, ih]

/-- Claim C4: under a shrink factor at most 1 and a non-negative weight floor
below the initial weight, a non-target task's weight as reported by
`get_weights` never increases from one `step` call to the next and never
drops below the task's effective `min_weight`. -/
theorem C4_aux_weight_monotone {σ : Type} (st₀ : SchedState σ)
    (calls : List (List (String × ℚ) × σ)) (n : Nat) (task : String)
    (td₀ : TaskData) (w w' : ℚ)
    (hcfg : ∀ p ∈ st₀.tasks, p.2.target = false →
      effFactor st₀ p.2 ≤ 1 ∧ 0 ≤ effMinWeight st₀ p.2 ∧
        effMinWeight st₀ p.2 ≤ p.2.weight)
    (h0 : lookupT st₀.tasks task = some td₀) (ht : td₀.target = false)
    (hw : lookupT (TaskScheduler.get_weights
      (TaskScheduler.run st₀ (calls.take n))) task = some w)
    (hw' : lookupT (TaskScheduler.get_weights
      (TaskScheduler.run st₀ (calls.take (n + 1)))) task = some w') :
    w' ≤ w ∧ effMinWeight st₀ td₀ ≤ w' ∧ effMinWeight st₀ td₀ ≤ w := by
  have hg0 : GoodCfg st₀ := fun u td hl htar =>
    hcfg (u, td) (lookupT_mem hl) htar
  obtain ⟨hsA, hgA⟩ := run_steppy (calls.take n) st₀ hg0
  obtain ⟨hpA, hfA, htA, hmA, hnA, hsomeA⟩ := hsA
  obtain ⟨tdA, hlA, e1, e2, e3, e4, e5, hwA⟩ := hsomeA task td₀ h0
  rw [lookupT_get_weights, hlA] at hw
  have hwEq : tdA.weight = w := Option.some.inj hw
  have htA' : tdA.target = false := e1.trans ht
  have hmwA : effMinWeight (TaskScheduler.run st₀ (calls.take n)) tdA =
      effMinWeight st₀ td₀ := by
    rw [effMinWeight, effMinWeight, e5, hmA]
  have hlow : effMinWeight st₀ td₀ ≤ w := by
    have := (hgA task tdA hlA htA').2.2
    rw [hmwA, hwEq] at this
    exact this
  have hB : TaskScheduler.run st₀ (calls.take (n + 1)) =
      TaskScheduler.run (TaskScheduler.run st₀ (calls.take n)) calls[n]?.toList := by
    rw [← run_append, ← List.take_succ]
  cases hget : calls[n]? with
  | none =>
    rw [hget] at hB
    have hBA : TaskScheduler.run st₀ (calls.take (n + 1)) =
        TaskScheduler.run st₀ (calls.take n) := by rw [hB]; rfl
    rw [hBA, lookupT_get_weights, hlA] at hw'
    have hww : w' = w := (Option.some.inj hw').symm.trans hwEq
    rw [hww]
    exact ⟨le_refl _, hlow, hlow⟩
  | some c =>
    obtain ⟨cs, cm⟩ := c
    rw [hget] at hB
    have hB' : TaskScheduler.run st₀ (calls.take (n + 1)) =
        (TaskScheduler.step (TaskScheduler.run st₀ (calls.take n)) cs cm).1 := by
      rw [hB]; rfl
    obtain ⟨hsB, hgB⟩ :=
      step_steppy cs (TaskScheduler.run st₀ (calls.take n)) cm hgA
    obtain ⟨hpB, hfB, htB, hmB, hnB, hsomeB⟩ := hsB
    obtain ⟨tdB, hlB, f1, f2, f3, f4, f5, hwB⟩ := hsomeB task tdA hlA
    rw [hB'] at hw'
    rw [lookupT_get_weights, hlB] at hw'
    have hwEq' : tdB.weight = w' := Option.some.inj hw'
    refine ⟨?_, ?_, hlow⟩
    · rw [← hwEq, ← hwEq']
      exact hwB htA'
    · have htB' : tdB.target = false := f1.trans htA'
      have := (hgB task tdB hlB htB').2.2
      have hmwB : effMinWeight
          (TaskScheduler.step (TaskScheduler.run st₀ (calls.take n)) cs cm).1 tdB =
          effMinWeight st₀ td₀ := by
        rw [effMinWeight, effMinWeight, f5, e5, hmB, hmA]
      rw [hmwB, hwEq'] at this
      exact this

/-- Writing one task record and the snapshot slot preserves `InvC10`,
provided the new record satisfies the invariant and the snapshot does not
disappear. -/
theorem invC10_insert {σ : Type} (st : SchedState σ) (task : String)
    (td1 : TaskData) (snap' : Option σ) (hinv : InvC10 st)
    (hsnap : st.snapshot ≠ none → snap' ≠ none)
    (hnew : td1.target = true →
      (td1.mode = "max" ∧ td1.best = XRat.negInf) ∨
      (td1.mode = "min" ∧ td1.best = XRat.posInf) ∨
      ((∃ q, td1.best = XRat.fin q) ∧ snap' ≠ none)) :
    InvC10  { st with tasks := dictInsert st.tasks task td1, snapshot := snap' } := by
  intro u tdu hlu htar
  by_cases hut : u = task
  · subst hut
    have hlu' : lookupT (dictInsert st.tasks u td1) u = some tdu := hlu
    rw [lookupT_dictInsert_self] at hlu'
    have : td1 = tdu := Option.some.inj hlu'
    subst this
    exact hnew htar
  · have hlu' : lookupT (dictInsert st.tasks task td1) u = some tdu := hlu
    rw [lookupT_dictInsert_ne hut] at hlu'
    rcases hinv u tdu hlu' htar with h | h | ⟨hq, hs⟩
    · exact Or.inl h
    · exact Or.inr (Or.inl h)
    · exact Or.inr (Or.inr ⟨hq, hsnap hs⟩)

/-- With mode `max` and `best` still at `-inf`, any finite score is an
improvement. -/
theorem is_best_negInf {σ : Type} (st : SchedState σ) (task : String)
    (score : ℚ) (td : TaskData) (hlk : lookupT st.tasks task = some td)
    (hm : td.mode = "max") (hb : td.best = XRat.negInf) :
    TaskScheduler.is_best st task score = .ok true := by
  have hred : TaskScheduler.is_best st task score =
      (if lower td.mode = "max" then
        Except.ok (qGtX score (td.best.addQ (effThreshold st td)))
      else if lower td.mode = "min" then
        Except.ok (qLtX score (td.best.subQ (effThreshold st td)))
      else Except.error ("Wrong mode value [" ++ td.mode ++ "] for task: " ++ task)) := by
    unfold TaskScheduler.is_best
    rw [hlk]
  rw [hred, hm, hb]
  rw [if_pos (show lower "max" = "max" from rfl)]
  simp [XRat.addQ, qGtX]

/-- With mode `min` and `best` still at `+inf`, any finite score is an
improvement. -/
theorem is_best_posInf {σ : Type} (st : SchedState σ) (task : String)
    (score : ℚ) (td : TaskData) (hlk : lookupT st.tasks task = some td)
    (hm : td.mode = "min") (hb : td.best = XRat.posInf) :
    TaskScheduler.is_best st task score = .ok true := by
  have hred : TaskScheduler.is_best st task score =
      (if lower td.mode = "max" then
        Except.ok (qGtX score (td.best.addQ (effThreshold st td)))
      else if lower td.mode = "min" then
        Except.ok (qLtX score (td.best.subQ (effThreshold st td)))
      else Except.error ("Wrong mode value [" ++ td.mode ++ "] for task: " ++ task)) := by
    unfold TaskScheduler.is_best
    rw [hlk]
  rw [hred, hm, hb]
  rw [if_neg (show ¬(lower "min" = "max") by decide)]
  rw [if_pos (show lower "min" = "min" from rfl)]
  simp [XRat.subQ, qLtX]

/-- `afterUpdate` preserves `InvC10` on its non-raising exits, and can only
raise `EarlyStop` or propagate `ValueError`, never `FileNotFoundError`,
provided a target task reaching this point has a finite best and an existing
snapshot. -/
theorem afterUpdate_invC10 {σ : Type} (st : SchedState σ) (task : String)
    (td1 : TaskData) (snap : Option σ) (isT : Bool) (hinv : InvC10 st)
    (hsnap : st.snapshot ≠ none → snap ≠ none)
    (htgt : td1.target = true → (∃ q, td1.best = XRat.fin q) ∧ snap ≠ none)
    (hT : isT = td1.target) :
    ((afterUpdate st task td1 snap isT).2 = none →
      InvC10 (afterUpdate st task td1 snap isT).1) ∧
    (∀ e, (afterUpdate st task td1 snap isT).2 = some e →
      e ≠ StepError.fileNotFound) := by
  unfold afterUpdate
  by_cases hp : effPatience st td1 ≤ td1.steps
  · rw [if_pos hp]
    cases hTv : isT with
    | true =>
      rw [if_pos rfl]
      obtain ⟨hq, hs⟩ := htgt (hTv ▸ hT).symm
      cases snap with
      | none => exact absurd rfl hs
      | some sd =>
        refine ⟨fun h => absurd h (by simp), fun e he => ?_⟩
        have : StepError.earlyStop task td1.best sd = e := Option.some.inj he
        rw [← this]
        intro hcontra
        cases hcontra
    | false =>
      rw [if_neg (by simp)]
      refine ⟨fun _ => ?_, fun e he => absurd he (by simp)⟩
      have hfalse : td1.target = false := (hTv ▸ hT).symm
      have base := invC10_insert st task td1 snap hinv hsnap
        (fun h => Or.inr (Or.inr (htgt h)))
      have step2 := invC10_insert
        { st with tasks := dictInsert st.tasks task td1, snapshot := snap }
        task (shrinkTD st td1) snap base (fun h => h)
        (fun h => absurd (by simpa [shrinkTD] using h) (by rw [hfalse]; simp))
      exact step2
  · rw [if_neg hp]
    refine ⟨fun _ => ?_, fun e he => absurd he (by simp)⟩
    exact invC10_insert st task td1 snap hinv hsnap
      (fun h => Or.inr (Or.inr (htgt h)))

/-- One loop iteration of `step` preserves `InvC10` and cannot raise
`FileNotFoundError`. -/
theorem stepOne_invC10 {σ : Type} (st : SchedState σ) (task : String)
    (score : ℚ) (m : σ) (hinv : InvC10 st) :
    ((stepOne st task score m).2 = none → InvC10 (stepOne st task score m).1) ∧
    (∀ e, (stepOne st task score m).2 = some e →
      e ≠ StepError.fileNotFound) := by
  unfold stepOne
  cases hlk : lookupT st.tasks task with
  | none => exact ⟨fun _ => hinv, fun e he => absurd he (by simp)⟩
  | some td =>
    cases hib : TaskScheduler.is_best st task score with
    | error err =>
      refine ⟨fun h => absurd h (by simp), fun e he => ?_⟩
      have : StepError.wrongMode task = e := Option.some.inj he
      rw [← this]
      intro hcontra
      cases hcontra
    | ok b =>
      cases b with
      | true =>
        refine afterUpdate_invC10 st task (improvedTD td score) _ td.target
          hinv ?_ ?_ ?_
        · intro hs
          by_cases htv : td.target = true
          · rw [if_pos htv]; simp
          · rw [if_neg htv]; exact hs
        · intro htv
          have htv' : td.target = true := htv
          refine ⟨⟨score, rfl⟩, ?_⟩
          rw [if_pos htv']
          simp
        · show td.target = (improvedTD td score).target
          rfl
      | false =>
        have hA : td.target = true →
            (∃ q, td.best = XRat.fin q) ∧ st.snapshot ≠ none := by
          intro htv
          rcases hinv task td hlk htv with ⟨hm, hb⟩ | ⟨hm, hb⟩ | ⟨hq, hs⟩
          · rw [is_best_negInf st task score td hlk hm hb] at hib
            cases Option.some.inj (congrArg Except.toOption hib)
          · rw [is_best_posInf st task score td hlk hm hb] at hib
            cases Option.some.inj (congrArg Except.toOption hib)
          · exact ⟨hq, hs⟩
        refine afterUpdate_invC10 st task (stuckTD td) st.snapshot td.target
          hinv (fun h => h) ?_ ?_
        · intro htv
          obtain ⟨⟨q, hq⟩, hs⟩ := hA htv
          exact ⟨⟨q, hq⟩, hs⟩
        · show td.target = (stuckTD td).target
          rfl

/-- A whole `step` call preserves `InvC10` and cannot raise
`FileNotFoundError`. -/
theorem step_invC10 {σ : Type} (scores : List (String × ℚ))
    (st : SchedState σ) (m : σ) (hinv : InvC10 st) :
    ((TaskScheduler.step st scores m).2 = none →
      InvC10 (TaskScheduler.step st scores m).1) ∧
    (∀ e, (TaskScheduler.step st scores m).2 = some e →
      e ≠ StepError.fileNotFound) := by
  induction scores generalizing st with
  | nil => exact ⟨fun _ => hinv, fun e he => absurd he (by simp [TaskScheduler.step])⟩
  | cons p rest ih =>
    obtain ⟨task, score⟩ := p
    have h1 := stepOne_invC10 st task score m hinv
    rcases hso : stepOne st task score m with ⟨st', e⟩
    rw [hso] at h1
    cases e with
    | none =>
      rw [TaskScheduler.step, hso]
      exact ih st' (h1.1 rfl)
    | some err =>
      rw [TaskScheduler.step, hso]
      exact ⟨fun h => absurd h (by simp), fun e he => by
        have : err = e := Option.some.inj he
        rw [← this]
        exact h1.2 err rfl⟩

/-- A run of `step` calls from a state satisfying `InvC10` can never end in
`FileNotFoundError`. -/
theorem runE_invC10 {σ : Type} (calls : List (List (String × ℚ) × σ))
    (st : SchedState σ) (hinv : InvC10 st) :
    TaskScheduler.runE st calls ≠ Except.error StepError.fileNotFound := by
  induction calls generalizing st with
  | nil => intro h; cases h
  | cons c rest ih =>
    obtain ⟨scores, m⟩ := c
    have h1 := step_invC10 scores st m hinv
    rcases hstep : TaskScheduler.step st scores m with ⟨st', e⟩
    rw [hstep] at h1
    cases e with
    | none =>
      rw [TaskScheduler.runE, hstep]
      exact ih st' (h1.1 rfl)
    | some err =>
      rw [TaskScheduler.runE, hstep]
      intro h
      exact h1.2 err rfl (Except.error.inj h)

/-- Right after construction every task's `best` matches its mode and its
step counter is zero. -/
theorem schedInit_invC10 (σ : Type) (s : Settings)
    (hm : ∀ p ∈ (schedInit σ s).tasks, p.2.target = true →
      p.2.mode = "max" ∨ p.2.mode = "min") :
    InvC10 (schedInit σ s) := by
  intro u td hlu htar
  have hmem := lookupT_mem hlu
  obtain ⟨p, hp, hpe⟩ := List.mem_map.mp hmem
  have htd : resolveTask p.2 = td := congrArg Prod.snd hpe
  have hbest : td.best =
      (if td.mode = "max" then XRat.negInf else XRat.posInf) := by
    rw [← htd]
    rfl
  rcases hm (u, td) hmem htar with hmode | hmode
  · rw [hmode, if_pos rfl] at hbest
    exact Or.inl ⟨hmode, hbest⟩
  · rw [hmode, if_neg (by decide)] at hbest
    exact Or.inr (Or.inl ⟨hmode, hbest⟩)

theorem lower_max : lower "max" = "max" := by decide

theorem lower_min : lower "min" = "min" := by decide

theorem lower_avg : lower "avg" = "avg" := by decide

/-- `get_target_task` succeeds exactly when some task has a truthy `target`
entry. -/
theorem findTarget_isOk (l : List TaskSetting) :
    (findTarget l).isOk = l.any (fun t => t.target) := by
  induction l with
  | nil => rfl
  | cons t ts ih =>
    cases ht : t.target with
    | true => simp [findTarget, ht, Except.isOk, Except.toBool]
    | false => simp [findTarget, ht, ih]

/-- Reduction of `is_best` once the task's record is known. -/
theorem is_best_eq {σ : Type} (st : SchedState σ) (task : String)
    (td : TaskData) (value : ℚ) (hlk : lookupT st.tasks task = some td) :
    TaskScheduler.is_best st task value =
      (if lower td.mode = "max" then
        Except.ok (qGtX value (td.best.addQ (effThreshold st td)))
      else if lower td.mode = "min" then
        Except.ok (qLtX value (td.best.subQ (effThreshold st td)))
      else Except.error ("Wrong mode value [" ++ td.mode ++ "] for task: " ++ task)) := by
  unfold TaskScheduler.is_best
  rw [hlk]

/-- The first component of a singleton `step` call is the state left by its
only loop iteration. -/
theorem step_singleton_fst {σ : Type} (st : SchedState σ) (task : String)
    (score : ℚ) (m : σ) :
    (TaskScheduler.step st [(task, score)] m).1 = (stepOne st task score m).1 := by
  rcases h : stepOne st task score m with ⟨st', e⟩
  cases e with
  | none => rw [TaskScheduler.step, h]; rfl
  | some err => rw [TaskScheduler.step, h]

/-- Reduction of one loop iteration of `step` once the task's record is
known. -/
theorem stepOne_eq_some {σ : Type} (st : SchedState σ) (task : String)
    (score : ℚ) (m : σ) (td : TaskData)
    (hlk : lookupT st.tasks task = some td) :
    stepOne st task score m =
      (match TaskScheduler.is_best st task score with
       | .error _ => (st, some (.wrongMode task))
       | .ok true =>
          afterUpdate st task (improvedTD td score)
            (if td.target then some m else st.snapshot) td.target
       | .ok false => afterUpdate st task (stuckTD td) st.snapshot td.target) := by
  unfold stepOne
  rw [hlk]

/-- The record `afterUpdate` leaves for the updated task: the shrunk record
when an auxiliary task exhausted its patience, the updated record `td1`
otherwise. -/
theorem afterUpdate_lookup_task {σ : Type} (st : SchedState σ) (task : String)
    (td1 : TaskData) (snap : Option σ) (isTarget : Bool) :
    lookupT (afterUpdate st task td1 snap isTarget).1.tasks task =
      some (if effPatience st td1 ≤ td1.steps ∧ isTarget = false then
        shrinkTD st td1 else td1) := by
  unfold afterUpdate
  by_cases hp : effPatience st td1 ≤ td1.steps
  · rw [if_pos hp]
    cases isTarget with
    | true =>
      rw [if_pos rfl, if_neg (by simp)]
      cases snap with
      | some sd => exact lookupT_dictInsert_self _ _ _
      | none => exact lookupT_dictInsert_self _ _ _
    | false =>
      rw [if_neg (by simp), if_pos ⟨hp, rfl⟩]
      show lookupT (dictInsert (dictInsert st.tasks task td1) task
        (shrinkTD st td1)) task = _
      exact lookupT_dictInsert_self _ _ _
  · rw [if_neg hp, if_neg (by simp [hp])]
    exact lookupT_dictInsert_self _ _ _

/-- Sum of an if-then-else map over a list, in terms of the number of
occurrences of the distinguished element. -/
theorem sum_map_ite (target : String) (a b : ℚ) (tasks : List String) :
    (tasks.map (fun t => if t ≠ target then a else b)).sum =
      a * ((tasks.length : ℚ) - (tasks.count target : ℚ)) +
        b * (tasks.count target : ℚ) := by
  induction tasks with
  | nil => simp
  | cons t ts ih =>
    by_cases ht : t = target
    · subst ht
      rw [List.map_cons, List.sum_cons, if_neg (by simp), ih,
        List.count_cons_self, List.length_cons]
      push_cast
      ring
    · rw [List.map_cons, List.sum_cons, if_pos ht, ih,
        List.count_cons_of_ne (fun h => ht h.symm), List.length_cons]
      push_cast
      ring

/-- Closed form of the `DelayerScheduler` state after `k` explicit `step`
invocations following construction with a non-negative delay. -/
theorem delayer_state (d : Int) (hd : 0 ≤ d) (k : Nat) :
    (DelayerScheduler.runSteps (DelayerScheduler.init d) k).nb_steps = (k : Int) ∧
    (DelayerScheduler.runSteps (DelayerScheduler.init d) k).delay = d ∧
    (DelayerScheduler.runSteps (DelayerScheduler.init d) k).base_steps =
      ((k : Int) - d).toNat := by
  induction k with
  | zero =>
    refine ⟨?_, rfl, ?_⟩
    · show (-1 + 1 : Int) = (0 : Nat)
      norm_num
    · show (if d < -1 + 1 then 0 + 1 else 0) = ((0 : Int) - d).toNat
      rw [if_neg (by omega)]
      omega
  | succ k ih =>
    obtain ⟨h1, h2, h3⟩ := ih
    rw [DelayerScheduler.runSteps]
    unfold DelayerScheduler.stepFn
    refine ⟨?_, h2, ?_⟩
    · show _ + 1 = _
      rw [h1]
      push_cast
      ring
    · show (if _ < _ + 1 then _ + 1 else _) = _
      rw [h1, h2, h3]
      by_cases hk : d < (k : Int) + 1
      · rw [if_pos hk]
        push_cast
        omega
      · rw [if_neg hk]
        push_cast
        omega

set_option maxHeartbeats 1000000 in
/-- Claim C1: with patience 2, mode max, threshold 0 and the target score
sequence [0.5, 0.5, 0.5] over three `step` calls, the first call records an
improvement (counter reset to 0, snapshot saved), the second call does not
raise, and `EarlyStopException` carrying (task, best = 0.5, the snapshot
saved at call 1) is raised exactly on the third call, the snapshot being
removed from the scheduler's state as part of raising. -/
theorem C1_early_stop_scenario :
    c1_s1.2 = none ∧
    (lookupT c1_s1.1.tasks "t").map TaskData.steps = some 0 ∧
    c1_s1.1.snapshot = some 7 ∧
    c1_s2.2 = none ∧
    (lookupT c1_s2.1.tasks "t").map TaskData.steps = some 1 ∧
    c1_s2.1.snapshot = some 7 ∧
    c1_s3.2 = some (StepError.earlyStop "t" (XRat.fin (1/2)) 7) ∧
    c1_s3.1.snapshot = none := by
  norm_num +decide [c1_s3, c1_s2, c1_s1, c1_settings, schedInit, initTasksLoop,
    resolveTask, dictInsert, replaceKey, lookupT, TaskScheduler.step, stepOne,
    afterUpdate, TaskScheduler.is_best, improvedTD, stuckTD, shrinkTD,
    effPatience, effThreshold, effFactor, effMinWeight, lower_max, XRat.addQ,
    XRat.subQ, qGtX, qLtX]

/-- Claim C2 (amended): construction fails (in `get_target_task`, the only
construction-time target check) exactly when no task is marked target; any
number of target tasks of one or more is accepted, the first one being used. -/
theorem C2_target_check :
    ∀ s : Settings, (get_target_task s).isOk = s.tasks.any (fun t => t.target) :=
  fun s => findTarget_isOk s.tasks

/-- Claim C2, counterexample: with two target tasks, `get_target_task`
succeeds (returning the first target's name) and the scheduler is built
tracking both tasks as targets, so construction does not fail. -/
theorem C2_two_targets_accepted :
    get_target_task c2_settings = Except.ok "t1" ∧
    (lookupT (schedInit Nat c2_settings).tasks "t1").map TaskData.target = some true ∧
    (lookupT (schedInit Nat c2_settings).tasks "t2").map TaskData.target = some true := by
  norm_num +decide [c2_settings, get_target_task, findTarget, schedInit,
    initTasksLoop, resolveTask, dictInsert, replaceKey, lookupT]

/-- Claim C3 (amended): for a tracked task, `is_best` returns true iff
`value > best + threshold` for (lower-cased) mode `max` — so
`value = best + threshold` is not an improvement — true iff
`value < best - threshold` for mode `min`, and raises `ValueError` for any
other mode; construction does not validate the mode (see the
counterexample). -/
theorem C3_is_best_contract {σ : Type} (st : SchedState σ) (task : String)
    (td : TaskData) (value b : ℚ) (hlk : lookupT st.tasks task = some td) :
    (lower td.mode = "max" → td.best = XRat.fin b →
      (TaskScheduler.is_best st task value = Except.ok true ↔
        b + effThreshold st td < value)) ∧
    (lower td.mode = "max" → td.best = XRat.fin b →
      value = b + effThreshold st td →
      TaskScheduler.is_best st task value = Except.ok false) ∧
    (lower td.mode = "min" → td.best = XRat.fin b →
      (TaskScheduler.is_best st task value = Except.ok true ↔
        value < b - effThreshold st td)) ∧
    (lower td.mode ≠ "max" → lower td.mode ≠ "min" →
      TaskScheduler.is_best st task value =
        Except.error ("Wrong mode value [" ++ td.mode ++ "] for task: " ++ task)) := by
  rw [is_best_eq st task td value hlk]
  refine ⟨?_, ?_, ?_, ?_⟩
  · intro hm hb
    rw [if_pos hm, hb]
    simp [XRat.addQ, qGtX]
  · intro hm hb hv
    rw [if_pos hm, hb]
    simp [XRat.addQ, qGtX, hv]
  · intro hm hb
    rw [if_neg (by rw [hm]; decide), if_pos hm, hb]
    simp [XRat.subQ, qLtX]
  · intro h1 h2
    rw [if_neg h1, if_neg h2]

/-- Claim C3, witness: in the state after the first scenario call, task `t`
has best 0.5 and threshold 0, and `is_best` at value 0.75 answers exactly
the comparison 0.5 + 0 < 0.75. -/
theorem C3_is_best_contract_witness :
    lookupT c1_s1.1.tasks "t" = some c1_td1 ∧
    (TaskScheduler.is_best c1_s1.1 "t" (3/4) = Except.ok true ↔
      (1/2 : ℚ) + effThreshold c1_s1.1 c1_td1 < 3/4) := by
  have hlk : lookupT c1_s1.1.tasks "t" = some c1_td1 := by
    norm_num +decide [c1_s1, c1_settings, schedInit, initTasksLoop,
      resolveTask, dictInsert, replaceKey, lookupT, TaskScheduler.step,
      stepOne, afterUpdate, TaskScheduler.is_best, improvedTD, stuckTD,
      effPatience, effThreshold, effFactor, effMinWeight, lower_max,
      XRat.addQ, qGtX, c1_td1]
  exact ⟨hlk,
    (C3_is_best_contract c1_s1.1 "t" c1_td1 (3/4) (1/2) hlk).1
      lower_max rfl⟩

/-- Claim C3, counterexample: a task whose configured mode is `avg` passes
construction (`get_target_task` succeeds and the scheduler is built), and
the `ValueError` only surfaces when `is_best` is called. -/
theorem C3_mode_unchecked_at_construction :
    get_target_task c3_settings = Except.ok "t" ∧
    TaskScheduler.is_best (schedInit Nat c3_settings) "t" (1/2) =
      Except.error "Wrong mode value [avg] for task: t" := by
  constructor
  · norm_num [c3_settings, get_target_task, findTarget]
  · simp +decide [c3_settings, schedInit, initTasksLoop, resolveTask,
      dictInsert, replaceKey, lookupT, TaskScheduler.is_best, effThreshold,
      lower_avg]

/-- Claim C5 (amended): in a `step` call evaluating a tracked task once,
`steps_since_improvement` resets to zero exactly on improvement, else
increments by one; exhaustion does not reset it, and an exhausted auxiliary
task's weight is re-shrunk (`max(weight * factor, min_weight)`) at EVERY
subsequent non-improving evaluation — at every evaluation with
`steps + 1 >= patience`, not once per patience-length interval. -/
theorem C5_counter_and_shrink {σ : Type} (st : SchedState σ) (task : String)
    (score : ℚ) (m : σ) (td : TaskData)
    (hlk : lookupT st.tasks task = some td) :
    (TaskScheduler.is_best st task score = Except.ok true →
      (lookupT (TaskScheduler.step st [(task, score)] m).1.tasks task).map
        TaskData.steps = some 0) ∧
    (TaskScheduler.is_best st task score = Except.ok false →
      (lookupT (TaskScheduler.step st [(task, score)] m).1.tasks task).map
        TaskData.steps = some (td.steps + 1) ∧
      (td.target = false → effPatience st td ≤ td.steps + 1 →
        (lookupT (TaskScheduler.step st [(task, score)] m).1.tasks task).map
          TaskData.weight =
            some (max (td.weight * effFactor st td) (effMinWeight st td))) ∧
      (td.steps + 1 < effPatience st td →
        (lookupT (TaskScheduler.step st [(task, score)] m).1.tasks task).map
          TaskData.weight = some td.weight)) := by
  rw [step_singleton_fst, stepOne_eq_some st task score m td hlk]
  constructor
  · intro hib
    rw [hib]
    show (lookupT (afterUpdate st task (improvedTD td score) _ td.target).1.tasks
      task).map TaskData.steps = some 0
    rw [afterUpdate_lookup_task]
    by_cases hc : effPatience st (improvedTD td score) ≤
        (improvedTD td score).steps ∧ td.target = false
    · rw [if_pos hc]; rfl
    · rw [if_neg hc]; rfl
  · intro hib
    rw [hib]
    show (lookupT (afterUpdate st task (stuckTD td) st.snapshot td.target).1.tasks
        task).map TaskData.steps = some (td.steps + 1) ∧ _
    refine ⟨?_, ?_, ?_⟩
    · rw [afterUpdate_lookup_task]
      by_cases hc : effPatience st (stuckTD td) ≤ (stuckTD td).steps ∧
          td.target = false
      · rw [if_pos hc]; rfl
      · rw [if_neg hc]; rfl
    · intro htar hp
      rw [afterUpdate_lookup_task, if_pos ⟨hp, htar⟩]
      rfl
    · intro hp
      rw [afterUpdate_lookup_task,
        if_neg (fun hc => absurd hc.1 (by
          show ¬(effPatience st td ≤ td.steps + 1)
          omega))]
      rfl

/-- Claim C5, witness: at construction the auxiliary task `a` is tracked
with `best = -inf`, the first evaluation (score 0) is an improvement, and
the counter is reset to zero. -/
theorem C5_counter_and_shrink_witness :
    lookupT (schedInit Nat c5_settings).tasks "a" = some c5_td0 ∧
    TaskScheduler.is_best (schedInit Nat c5_settings) "a" 0 = Except.ok true ∧
    (lookupT (TaskScheduler.step (schedInit Nat c5_settings) [("a", 0)] 0).1.tasks
      "a").map TaskData.steps = some 0 := by
  have hlk : lookupT (schedInit Nat c5_settings).tasks "a" = some c5_td0 := by
    norm_num +decide [c5_settings, schedInit, initTasksLoop, resolveTask,
      dictInsert, replaceKey, lookupT, c5_td0]
  have hib : TaskScheduler.is_best (schedInit Nat c5_settings) "a" 0 =
      Except.ok true := by
    rw [is_best_eq _ _ c5_td0 _ hlk]
    simp +decide [c5_td0, lower_max, XRat.addQ, qGtX]
  exact ⟨hlk, hib,
    (C5_counter_and_shrink (schedInit Nat c5_settings) "a" 0 0 c5_td0 hlk).1 hib⟩

set_option maxHeartbeats 2000000 in
/-- Claim C5, counterexample: with patience 2 and factor 1/2, the stuck
auxiliary task `a` (improving only on the first of four evaluations) keeps
weight 1 after two evaluations, is shrunk to 1/2 at the third, and is shrunk
AGAIN to 1/4 already at the fourth evaluation — one evaluation later, not a
full patience-length (2) interval later — while its counter reaches 3
(exhaustion never reset it). -/
theorem C5_shrink_reapplied_every_eval :
    lookupT (TaskScheduler.get_weights c5_s2.1) "a" = some 1 ∧
    lookupT (TaskScheduler.get_weights c5_s3.1) "a" = some (1/2) ∧
    lookupT (TaskScheduler.get_weights c5_s4.1) "a" = some (1/4) ∧
    (lookupT c5_s4.1.tasks "a").map TaskData.steps = some 3 ∧
    ((1:ℚ)/4 ≠ 1/2) := by
  norm_num +decide [c5_s4, c5_s3, c5_s2, c5_s1, c5_settings, schedInit,
    initTasksLoop, resolveTask, dictInsert, replaceKey, lookupT,
    TaskScheduler.step, stepOne, afterUpdate, TaskScheduler.is_best,
    improvedTD, stuckTD, shrinkTD, effPatience, effThreshold, effFactor,
    effMinWeight, lower_max, XRat.addQ, XRat.subQ, qGtX, qLtX,
    TaskScheduler.get_weights]

/-- Claim C6: for a `DelayerScheduler` with non-negative delay `d`, after `k`
explicit `step` invocations the counter reads `k`, the base schedule has not
been advanced while `k ≤ d` (the first `d` invocations do nothing to it),
every invocation past the `d`-th forwards to the base schedule, and
`waiting` is true exactly while the delay has not yet elapsed (equivalently,
while the base schedule has not been advanced). -/
theorem C6_delayer_behaviour (d : Int) (hd : 0 ≤ d) (k : Nat) :
    (DelayerScheduler.runSteps (DelayerScheduler.init d) k).nb_steps = (k : Int) ∧
    ((k : Int) ≤ d →
      (DelayerScheduler.runSteps (DelayerScheduler.init d) k).base_steps = 0) ∧
    (d ≤ (k : Int) →
      (DelayerScheduler.runSteps (DelayerScheduler.init d) (k + 1)).base_steps =
        (DelayerScheduler.runSteps (DelayerScheduler.init d) k).base_steps + 1) ∧
    ((DelayerScheduler.runSteps (DelayerScheduler.init d) k).waiting = true ↔
      (k : Int) ≤ d) ∧
    ((DelayerScheduler.runSteps (DelayerScheduler.init d) k).waiting = true ↔
      (DelayerScheduler.runSteps (DelayerScheduler.init d) k).base_steps = 0) := by
  obtain ⟨h1, h2, h3⟩ := delayer_state d hd k
  obtain ⟨g1, g2, g3⟩ := delayer_state d hd (k + 1)
  have hw : (DelayerScheduler.runSteps (DelayerScheduler.init d) k).waiting =
      true ↔ (k : Int) ≤ d := by
    rw [DelayerScheduler.waiting, h1, h2]
    simp
  refine ⟨h1, ?_, ?_, hw, ?_⟩
  · intro hk
    rw [h3]
    omega
  · intro hk
    rw [g3, h3]
    push_cast
    omega
  · rw [hw, h3]
    omega

/-- Claim C6, witness: delay 2 is non-negative, and the claimed behaviour
holds after one invocation. -/
theorem C6_delayer_behaviour_witness :
    0 ≤ (2 : Int) ∧
    ((DelayerScheduler.runSteps (DelayerScheduler.init 2) 1).nb_steps = ((1 : Nat) : Int) ∧
    (((1 : Nat) : Int) ≤ 2 →
      (DelayerScheduler.runSteps (DelayerScheduler.init 2) 1).base_steps = 0) ∧
    ((2 : Int) ≤ ((1 : Nat) : Int) →
      (DelayerScheduler.runSteps (DelayerScheduler.init 2) (1 + 1)).base_steps =
        (DelayerScheduler.runSteps (DelayerScheduler.init 2) 1).base_steps + 1) ∧
    ((DelayerScheduler.runSteps (DelayerScheduler.init 2) 1).waiting = true ↔
      ((1 : Nat) : Int) ≤ 2) ∧
    ((DelayerScheduler.runSteps (DelayerScheduler.init 2) 1).waiting = true ↔
      (DelayerScheduler.runSteps (DelayerScheduler.init 2) 1).base_steps = 0)) :=
  ⟨by decide, C6_delayer_behaviour 2 (by decide) 1⟩

/-- Claim C7 (amended): when every epoch completes without an
`EarlyStopException`, `train_epochs` returns nothing — the score maps its
evaluation checks produced are discarded by the epoch loop (line 453 drops
`train_epoch`'s return value), so a score map is only ever returned through
the early-stop handler. -/
theorem C7_normal_exhaustion_returns_none
    (epochOutcomes : List (List (Except EarlyStopInfo (List (String × ℚ)))))
    (h : ∀ ec ∈ epochOutcomes, (Trainer.train_epoch ec).isOk = true) :
    Trainer.train_epochs epochOutcomes = none := by
  induction epochOutcomes with
  | nil => rfl
  | cons ec rest ih =>
    have h1 := h ec (List.mem_cons_self _ _)
    show trainEpochsGo (ec :: rest) = none
    rw [trainEpochsGo]
    cases he : Trainer.train_epoch ec with
    | error e => rw [he] at h1; simp [Except.isOk, Except.toBool] at h1
    | ok s => exact ih (fun ec' hm => h ec' (List.mem_cons_of_mem _ hm))

/-- Claim C7, witness: a single epoch whose single evaluation check returned
a score map completes without early stop, and `train_epochs` still returns
nothing. -/
theorem C7_normal_exhaustion_returns_none_witness :
    (∀ ec ∈ [[Except.ok (ε := EarlyStopInfo) [("pos", (4:ℚ)/5)]]],
      (Trainer.train_epoch ec).isOk = true) ∧
    Trainer.train_epochs [[Except.ok [("pos", (4:ℚ)/5)]]] = none :=
  ⟨by intro ec hm; simp at hm; subst hm; rfl,
    C7_normal_exhaustion_returns_none _ (by
      intro ec hm; simp at hm; subst hm; rfl)⟩

/-- Claim C7, counterexample: all epochs run to exhaustion, an evaluation
check did run and produced the score map `pos -> 0.8`, yet `train_epochs`
returns `none` rather than that last evaluation's score map. -/
theorem C7_last_scores_discarded :
    Trainer.train_epochs [[Except.ok [("pos", (4:ℚ)/5)]]] = none ∧
    (none : Option (List (String × XRat))) ≠
      some [("pos", XRat.fin (4/5))] :=
  ⟨rfl, by simp⟩

/-- Claim C8 (amended): `sample_task` never validates that the target name
occurs among the task names (see the counterexample); when the target occurs
exactly once, the weight list is the claimed categorical distribution — each
non-target task gets `(1/(n-1))/factor` (for `n ≥ 2`), the target gets the
remainder, the single-task list gets `[1]` — and the masses sum to 1. -/
theorem C8_sampling_distribution (target : String) (tasks : List String)
    (factor : ℚ) (h1 : tasks.count target = 1) :
    (sample_task_weights target tasks factor).sum = 1 ∧
    (2 ≤ tasks.length →
      sample_task_weights target tasks factor = tasks.map (fun t =>
        if t ≠ target then (1 / ((tasks.length : ℚ) - 1)) / factor
        else 1 - ((1 / ((tasks.length : ℚ) - 1)) / factor) *
          ((tasks.length : ℚ) - 1))) ∧
    (tasks = [target] → sample_task_weights target tasks factor = [1]) := by
  refine ⟨?_, ?_, ?_⟩
  · unfold sample_task_weights
    rw [sum_map_ite target (sample_task_aux tasks.length factor) _ tasks, h1]
    push_cast
    ring
  · intro hn
    unfold sample_task_weights sample_task_aux
    rw [if_pos (show 1 < tasks.length by omega)]
  · intro h2
    subst h2
    norm_num [sample_task_weights, sample_task_aux]

/-- Claim C8, witness: for tasks [t1, t2, t3] with target t1 and factor 2,
the target occurs once and the distribution facts hold (each auxiliary task
gets (1/2)/2 = 1/4, the target 1/2, total mass 1). -/
theorem C8_sampling_distribution_witness :
    (["t1", "t2", "t3"].count "t1" = 1) ∧
    ((sample_task_weights "t1" ["t1", "t2", "t3"] 2).sum = 1 ∧
    (2 ≤ (["t1", "t2", "t3"] : List String).length →
      sample_task_weights "t1" ["t1", "t2", "t3"] 2 =
        ["t1", "t2", "t3"].map (fun t =>
          if t ≠ "t1" then
            (1 / (((["t1", "t2", "t3"] : List String).length : ℚ) - 1)) / 2
          else 1 - ((1 / (((["t1", "t2", "t3"] : List String).length : ℚ) - 1)) / 2) *
            (((["t1", "t2", "t3"] : List String).length : ℚ) - 1))) ∧
    ((["t1", "t2", "t3"] : List String) = ["t1"] →
      sample_task_weights "t1" ["t1", "t2", "t3"] 2 = [1])) :=
  ⟨by decide, C8_sampling_distribution "t1" ["t1", "t2", "t3"] 2 (by decide)⟩

/-- Claim C8, counterexample: with target `x` absent from [a, b], no error
of any kind is raised — the weight list is [1/2, 1/2] (every task receives
the auxiliary mass) and the `random.choices` draw succeeds since the total
mass is positive. -/
theorem C8_absent_target_not_an_error :
    sample_task_ok "x" ["a", "b"] 2 = true ∧
    sample_task_weights "x" ["a", "b"] 2 = [1/2, 1/2] ∧
    "x" ∉ (["a", "b"] : List String) := by
  refine ⟨?_, ?_, by decide⟩
  · norm_num +decide [sample_task_ok, sample_task_weights, sample_task_aux]
  · norm_num +decide [sample_task_weights, sample_task_aux]

/-- Claim C9: the check frequency derived in the constructor satisfies:
`checks_per_epoch = 1` yields `num_batches - 1`; values above `num_batches`
(other than the already-handled 1, for non-negative `num_batches`) yield 1;
values in `(1, num_batches]` yield `num_batches // checks_per_epoch` (floor
division); values at most 0 yield 0, so no checks ever fire. -/
theorem C9_check_freq_derivation (nb cpe : Int) :
    (cpe = 1 → check_freq nb cpe = nb - 1) ∧
    (0 ≤ nb → cpe ≠ 1 → nb < cpe → check_freq nb cpe = 1) ∧
    (1 < cpe → cpe ≤ nb → check_freq nb cpe = Int.fdiv nb cpe) ∧
    (0 ≤ nb → cpe ≤ 0 → check_freq nb cpe = 0) := by
  refine ⟨?_, ?_, ?_, ?_⟩
  · intro h
    rw [check_freq, if_pos h]
  · intro h0 h1 h2
    rw [check_freq, if_neg h1, if_pos h2]
  · intro h1 h2
    rw [check_freq, if_neg (by omega), if_neg (by omega), if_pos h1]
  · intro h0 h1
    rw [check_freq, if_neg (by omega), if_neg (by omega), if_neg (by omega)]

/-- Claim C9, witness: the four concrete derivations of the spec with
`num_batches = 100`. -/
theorem C9_check_freq_derivation_witness :
    check_freq 100 1 = 99 ∧ check_freq 100 200 = 1 ∧
    check_freq 100 4 = 25 ∧ check_freq 100 0 = 0 :=
  ⟨(C9_check_freq_derivation 100 1).1 rfl,
   (C9_check_freq_derivation 100 200).2.1 (by decide) (by decide) (by decide),
   ((C9_check_freq_derivation 100 4).2.2.1 (by decide) (by decide)).trans
     (by decide),
   (C9_check_freq_derivation 100 0).2.2.2 (by decide) (by decide)⟩

/-- Claim C10: starting from a freshly constructed scheduler whose target
tasks have mode `max` or `min` (so `best` is initialised to the matching
infinity), no run of `step` calls can ever reach the early-stop branch with
a missing checkpoint file: the first (finite) target score strictly improves
and stores a snapshot before the patience counter can reach its limit, so
`torch.load` never raises `FileNotFoundError`.  Scores are rationals in this
embedding, so every supplied score is finite by construction. -/
theorem C10_snapshot_always_present {σ : Type} (s : Settings)
    (calls : List (List (String × ℚ) × σ))
    (hm : ∀ p ∈ (schedInit σ s).tasks, p.2.target = true →
      p.2.mode = "max" ∨ p.2.mode = "min") :
    TaskScheduler.runE (schedInit σ s) calls ≠
      Except.error StepError.fileNotFound :=
  runE_invC10 calls (schedInit σ s) (schedInit_invC10 σ s hm)

/-- Claim C10, witness: the three-call early-stop scenario ends in an
`EarlyStopException`, not in a missing-snapshot error. -/
theorem C10_snapshot_always_present_witness :
    (∀ p ∈ (schedInit Nat c1_settings).tasks, p.2.target = true →
      p.2.mode = "max" ∨ p.2.mode = "min") ∧
    TaskScheduler.runE (schedInit Nat c1_settings)
      [([("t", 1/2)], 7), ([("t", 1/2)], 8), ([("t", 1/2)], 9)] ≠
      Except.error StepError.fileNotFound := by
  have hm : ∀ p ∈ (schedInit Nat c1_settings).tasks, p.2.target = true →
      p.2.mode = "max" ∨ p.2.mode = "min" := by
    norm_num +decide [c1_settings, schedInit, initTasksLoop, resolveTask,
      dictInsert, replaceKey]
  exact ⟨hm, C10_snapshot_always_present c1_settings _ hm⟩

/-- Claim C4, witness: one evaluation of the stuck-auxiliary scenario keeps
the weight of `a` at 1, which stays at or above the floor 0. -/
theorem C4_aux_weight_monotone_witness :
    lookupT (schedInit Nat c5_settings).tasks "a" = some c5_td0 ∧
    c5_td0.target = false ∧
    ((1:ℚ) ≤ 1 ∧ effMinWeight (schedInit Nat c5_settings) c5_td0 ≤ 1 ∧
      effMinWeight (schedInit Nat c5_settings) c5_td0 ≤ 1) := by
  have h0 : lookupT (schedInit Nat c5_settings).tasks "a" = some c5_td0 := by
    norm_num +decide [c5_settings, schedInit, initTasksLoop, resolveTask,
      dictInsert, replaceKey, lookupT, c5_td0]
  have hcfg : ∀ p ∈ (schedInit Nat c5_settings).tasks, p.2.target = false →
      effFactor (schedInit Nat c5_settings) p.2 ≤ 1 ∧
      0 ≤ effMinWeight (schedInit Nat c5_settings) p.2 ∧
      effMinWeight (schedInit Nat c5_settings) p.2 ≤ p.2.weight := by
    norm_num +decide [c5_settings, schedInit, initTasksLoop, resolveTask,
      dictInsert, replaceKey, effFactor, effMinWeight]
  have hw : lookupT (TaskScheduler.get_weights
      (TaskScheduler.run (schedInit Nat c5_settings)
        (([([("a", 0)], 0)] : List (List (String × ℚ) × Nat)).take 0))) "a" =
      some 1 := by
    norm_num +decide [c5_settings, schedInit, initTasksLoop, resolveTask,
      dictInsert, replaceKey, lookupT, TaskScheduler.run,
      TaskScheduler.get_weights]
  have hw' : lookupT (TaskScheduler.get_weights
      (TaskScheduler.run (schedInit Nat c5_settings)
        (([([("a", 0)], 0)] : List (List (String × ℚ) × Nat)).take 1))) "a" =
      some 1 := by
    norm_num +decide [c5_settings, schedInit, initTasksLoop, resolveTask,
      dictInsert, replaceKey, lookupT, TaskScheduler.run, TaskScheduler.step,
      stepOne, afterUpdate, TaskScheduler.is_best, improvedTD, stuckTD,
      shrinkTD, effPatience, effThreshold, effFactor, effMinWeight, lower_max,
      XRat.addQ, XRat.subQ, qGtX, qLtX, TaskScheduler.get_weights]
  exact ⟨h0, rfl,
    C4_aux_weight_monotone (schedInit Nat c5_settings) [([("a", 0)], 0)] 0 "a"
      c5_td0 1 1 hcfg h0 rfl hw hw'⟩
